import Mathlib

/-!
Shallow embedding of the stockapp dashboard (src/components/stock-chart.tsx):
the chart renderer's scales and candlestick geometry, the dashboard
controller's range filter and percent-change computation, and the fetcher's
error taxonomy.  Prices and pixel coordinates are modelled as rationals;
calendar dates are modelled at day granularity with JavaScript `Date`
semantics for month/day arithmetic (ECMA `MakeDay`: month index normalised
into the year, day overflow rolled into following months).
-/

namespace StockApp

/-- A calendar date as JavaScript stores it: year, 0-based month index, and
day of month.  Fields are unnormalised integers, as JS `setMonth`/`setDate`
accept out-of-range values and normalise them when converting to a time. -/
structure JSDate where
  year : Int
  month : Int
  day : Int
deriving DecidableEq, Repr

/-- Leap-year test of the Gregorian calendar. -/
def isLeap (y : Int) : Bool :=
  y % 4 == 0 && (y % 100 != 0 || y % 400 == 0)

/-- Days from civil date (year, month 1-12, day) to the number of days since
1970-01-01 (negative before).  Standard era-based Gregorian conversion. -/
def daysFromCivil (y m d : Int) : Int :=
  let y2 := if m ≤ 2 then y - 1 else y
  let era := y2.fdiv 400
  let yoe := y2 - era * 400
  let mp := (m + 9).emod 12
  let doy := (153 * mp + 2).fdiv 5 + d - 1
  let doe := yoe * 365 + yoe.fdiv 4 - yoe.fdiv 100 + doy
  era * 146097 + doe - 719468

/-- The day number of a JS date triple, with ECMA `MakeDay` normalisation:
the month index is folded into the year, and the day offset (which may be
out of range, zero or negative) is added to the first of that month. -/
def toDayNumber (y m d : Int) : Int :=
  daysFromCivil (y + m.fdiv 12) (m.emod 12 + 1) 1 + (d - 1)

/-- Day number of a `JSDate`. -/
def JSDate.num (dt : JSDate) : Int :=
  toDayNumber dt.year dt.month dt.day

/-- One OHLCV price bar (`StockData` in the source); the `date` string is
represented by its parsed calendar date. -/
structure Bar where
  date : JSDate
  open_ : ℚ
  high : ℚ
  low : ℚ
  close : ℚ
  volume : ℚ
deriving DecidableEq, Repr

/-- Placeholder bar used to model JS out-of-range indexing totally; every
theorem below only evaluates indexing in bounds. -/
def dummyBar : Bar :=
  { date := ⟨1970, 0, 1⟩, open_ := 0, high := 0, low := 0, close := 0, volume := 0 }

/-! ## Dashboard controller: percent change and range filter -/

/-- `calculateChange` (page component): zero when fewer than two bars were
fetched, otherwise the relative change between the first and last fetched
bar's close, in percent. -/
def calculateChange (data : List Bar) : ℚ :=
  if data.length < 2 then 0
  else ((data.getD (data.length - 1) dummyBar).close - (data.getD 0 dummyBar).close)
    / (data.getD 0 dummyBar).close * 100

/-- Line 331 of the page component: `const change = data ? calculateChange() : 0`.
The argument is the raw fetched series, not the range-filtered one. -/
def displayedChange (data : Option (List Bar)) : ℚ :=
  match data with
  | some d => calculateChange d
  | none => 0

/-- The cutoff day number `filterDataByTimeRange` computes for a recognised
time range: JS `setDate(d-1)` / `setMonth(m-1)` / `setMonth(m-6)` /
`setFullYear(y-1)` / `setFullYear(y-5)` applied to "now", at day
granularity.  Unrecognised ranges (including "ALL") yield no cutoff. -/
def cutoffDayNum (now : JSDate) (timeRange : String) : Option Int :=
  if timeRange = "1D" then some (toDayNumber now.year now.month (now.day - 1))
  else if timeRange = "1M" then some (toDayNumber now.year (now.month - 1) now.day)
  else if timeRange = "6M" then some (toDayNumber now.year (now.month - 6) now.day)
  else if timeRange = "1Y" then some (toDayNumber (now.year - 1) now.month now.day)
  else if timeRange = "5Y" then some (toDayNumber (now.year - 5) now.month now.day)
  else none

/-- `filterDataByTimeRange` (page component): keep the bars dated at or
after the cutoff; the switch's default branch (hit by "ALL" and anything
unrecognised) returns the data unfiltered. -/
def filterDataByTimeRange (now : JSDate) (timeRange : String) (data : List Bar) :
    List Bar :=
  match cutoffDayNum now timeRange with
  | some c => data.filter (fun b => c ≤ b.date.num)
  | none => data

/-! ## Chart renderer: margins, scales -/

/-- Inner drawable width: nominal width minus left (60) and right (30) margins. -/
def innerWidth (width : ℚ) : ℚ := width - 60 - 30

/-- Inner drawable height: nominal height minus top (20) and bottom (30) margins. -/
def innerHeight (height : ℚ) : ℚ := height - 20 - 30

/-- `d3.min` over a list: `none` on the empty list, else the least element. -/
def d3min : List ℚ → Option ℚ
  | [] => none
  | a :: l => match d3min l with | none => some a | some b => some (min a b)

/-- `d3.max` over a list: `none` on the empty list, else the greatest element. -/
def d3max : List ℚ → Option ℚ
  | [] => none
  | a :: l => match d3max l with | none => some a | some b => some (max a b)

/-- The vertical scale's domain (lines 59-63): lower end is the least
`min(low, close)` times 0.995, upper end the greatest `max(high, close)`
times 1.005; undefined on an empty bar list (the renderer guards on it). -/
def yDomain (bars : List Bar) : Option (ℚ × ℚ) :=
  match d3min (bars.map fun b => min b.low b.close),
        d3max (bars.map fun b => max b.high b.close) with
  | some lo, some hi => some (lo * 0.995, hi * 1.005)
  | _, _ => none

/-- The vertical scale's range (line 64): `[innerHeight, 0]`, inverted so
larger prices sit higher on screen. -/
def yRange (height : ℚ) : ℚ × ℚ := (innerHeight height, 0)

/-- A d3 linear scale from domain `[d0, d1]` to range `[r0, r1]`. -/
def linScale (d0 d1 r0 r1 v : ℚ) : ℚ :=
  r0 + (v - d0) * (r1 - r0) / (d1 - d0)

/-! ## Chart renderer: colours and candlestick geometry -/

/-- Up (green) colour constant, line 50. -/
def upColor : String := "rgb(34, 197, 94)"

/-- Down (red) colour constant, line 51. -/
def downColor : String := "rgb(239, 68, 68)"

/-- Net price change (line 49): last bar's close minus first bar's close. -/
def priceChange (bars : List Bar) : ℚ :=
  (bars.getD (bars.length - 1) dummyBar).close - (bars.getD 0 dummyBar).close

/-- Dominant chart colour (line 52): green when the net change is
non-negative, red otherwise. -/
def chartColor (bars : List Bar) : String :=
  if 0 ≤ priceChange bars then upColor else downColor

/-- Candle width (lines 113-116): `min((innerWidth / count) * 0.8, 15)`. -/
def candlestickWidth (innerW : ℚ) (count : ℕ) : ℚ :=
  min (innerW / count * 0.8) 15

/-- An SVG line element as the candlestick wick emits it. -/
structure WickLine where
  x1 : ℚ
  x2 : ℚ
  y1 : ℚ
  y2 : ℚ
  stroke : String
deriving DecidableEq, Repr

/-- An SVG rect element as the candlestick body emits it. -/
structure BodyRect where
  x : ℚ
  y : ℚ
  width : ℚ
  height : ℚ
  fill : String
deriving DecidableEq, Repr

/-- Per-bar direction test (line 124): `d.close >= d.open`. -/
def barIsUp (b : Bar) : Bool := b.open_ ≤ b.close

/-- The wick drawn for one bar (lines 127-133): a vertical segment at the
bar's scaled date, from the scaled high down to the scaled low, coloured by
the bar's own direction.  `xs` and `ys` are the chart's scales; `xs` takes
the bar date's day number. -/
def candleWick (xs ys : ℚ → ℚ) (b : Bar) : WickLine :=
  { x1 := xs b.date.num
    x2 := xs b.date.num
    y1 := ys b.high
    y2 := ys b.low
    stroke := if barIsUp b then upColor else downColor }

/-- The body drawn for one bar (lines 136-141): a rect starting half a
candle width left of the bar's scaled date, topped at the scaled
`max(open, close)`, of height `|ys open - ys close|`, coloured by the bar's
own direction. -/
def candleBody (xs ys : ℚ → ℚ) (w : ℚ) (b : Bar) : BodyRect :=
  { x := xs b.date.num - w / 2
    y := ys (max b.open_ b.close)
    width := w
    height := |ys b.open_ - ys b.close|
    fill := if barIsUp b then upColor else downColor }

/-! ## Tooltip nearest-bar lookup -/

/-- `d3.bisector(d => d.date).left(a, x, lo)` on an ascending sequence: the
least insertion index `i` in `[lo, a.length]` such that every element
before `i` (from `lo` on) is `< x`.  For a sorted array this is exactly
what d3's binary search returns. -/
def bisectLeft (a : List ℚ) (x : ℚ) (lo : ℕ) : ℕ :=
  lo + ((a.drop lo).takeWhile (fun d => decide (d < x))).length

/-- The mousemove handler's bar index (lines 170-173):
`bisect(formattedData, x0, 1) - 1`, with dates taken at day-number value
and the inverted cursor position `x0` a rational date value. -/
def tooltipIndex (bars : List Bar) (x0 : ℚ) : ℕ :=
  bisectLeft (bars.map fun b => (b.date.num : ℚ)) x0 1 - 1

/-! ## Fetcher -/

/-- A decoded quote-API JSON response, abstracted to what the fetcher
inspects: the truthy `"Error Message"` field if present, the truthy
`"Note"` field if present, and the value under the first key containing
`"Time Series"` if such a key exists (its entries keyed by parsed date,
with the five numeric fields already coerced). -/
structure ApiResponse where
  errorMessage : Option String
  note : Option String
  timeSeries : Option (List (JSDate × ℚ × ℚ × ℚ × ℚ × ℚ))
deriving Repr

/-- The rate-limit message thrown on a `"Note"` field (line 270). -/
def rateLimitMessage : String :=
  "API rate limit exceeded. Please try again in a minute."

/-- The no-data message thrown when no time-series key is found (line 277). -/
def noDataMessage : String :=
  "No data available for this stock symbol. Please check the symbol and try again."

/-- One parsed bar from a time-series entry (lines 280-287). -/
def entryToBar (e : JSDate × ℚ × ℚ × ℚ × ℚ × ℚ) : Bar :=
  { date := e.1, open_ := e.2.1, high := e.2.2.1, low := e.2.2.2.1,
    close := e.2.2.2.2.1, volume := e.2.2.2.2.2 }

/-- The fetcher's post-parse logic (lines 261-288): throw the explicit
error message if present, else the rate-limit message on a `"Note"`, else
the no-data message when no time series was found; otherwise map the
entries to bars and reverse them into ascending order. -/
def fetcher (r : ApiResponse) : Except String (List Bar) :=
  match r.errorMessage with
  | some msg => .error msg
  | none =>
    match r.note with
    | some _ => .error rateLimitMessage
    | none =>
      match r.timeSeries with
      | none => .error noDataMessage
      | some ts => .ok ((ts.map entryToBar).reverse)

/-! ## Helper lemmas -/

theorem d3min_cons_none {a : ℚ} {l : List ℚ} (h : d3min l = none) :
    d3min (a :: l) = some a := by
  simp [d3min, h]

theorem d3min_cons_some {a b : ℚ} {l : List ℚ} (h : d3min l = some b) :
    d3min (a :: l) = some (min a b) := by
  simp [d3min, h]

theorem d3max_cons_none {a : ℚ} {l : List ℚ} (h : d3max l = none) :
    d3max (a :: l) = some a := by
  simp [d3max, h]

theorem d3max_cons_some {a b : ℚ} {l : List ℚ} (h : d3max l = some b) :
    d3max (a :: l) = some (max a b) := by
  simp [d3max, h]

theorem d3min_eq_none {l : List ℚ} (h : d3min l = none) : l = [] := by
  cases l with
  | nil => rfl
  | cons a t =>
    cases ht : d3min t with
    | none => rw [d3min_cons_none ht] at h; exact absurd h (by simp)
    | some b => rw [d3min_cons_some ht] at h; exact absurd h (by simp)

theorem d3max_eq_none {l : List ℚ} (h : d3max l = none) : l = [] := by
  cases l with
  | nil => rfl
  | cons a t =>
    cases ht : d3max t with
    | none => rw [d3max_cons_none ht] at h; exact absurd h (by simp)
    | some b => rw [d3max_cons_some ht] at h; exact absurd h (by simp)

theorem d3min_le (l : List ℚ) : ∀ m, d3min l = some m → ∀ x ∈ l, m ≤ x := by
  induction l with
  | nil => intro m h; simp [d3min] at h
  | cons a t ih =>
    intro m h x hx
    cases ht : d3min t with
    | none =>
      rw [d3min_cons_none ht] at h
      injection h with h2
      rcases List.mem_cons.mp hx with rfl | hxt
      · rw [← h2]
      · rw [d3min_eq_none ht] at hxt; simp at hxt
    | some b =>
      rw [d3min_cons_some ht] at h
      injection h with h2
      rcases List.mem_cons.mp hx with rfl | hxt
      · rw [← h2]; exact min_le_left _ _
      · calc m = min a b := h2.symm
          _ ≤ b := min_le_right _ _
          _ ≤ x := ih b ht x hxt

theorem le_d3max (l : List ℚ) : ∀ m, d3max l = some m → ∀ x ∈ l, x ≤ m := by
  induction l with
  | nil => intro m h; simp [d3max] at h
  | cons a t ih =>
    intro m h x hx
    cases ht : d3max t with
    | none =>
      rw [d3max_cons_none ht] at h
      injection h with h2
      rcases List.mem_cons.mp hx with rfl | hxt
      · rw [← h2]
      · rw [d3max_eq_none ht] at hxt; simp at hxt
    | some b =>
      rw [d3max_cons_some ht] at h
      injection h with h2
      rcases List.mem_cons.mp hx with rfl | hxt
      · rw [← h2]; exact le_max_left _ _
      · calc x ≤ b := ih b ht x hxt
          _ ≤ max a b := le_max_right _ _
          _ = m := h2

theorem length_takeWhile_lt (x : ℚ) :
    ∀ (l : List ℚ) (k : ℕ), k ≤ l.length →
      (∀ (i : ℕ), i < l.length → i < k → ∀ hi : i < l.length, l[i] < x) →
      (∀ hk : k < l.length, ¬ l[k] < x) →
      (l.takeWhile (fun d => decide (d < x))).length = k := by
  intro l
  induction l with
  | nil =>
    intro k hk _ _
    simp only [List.length_nil, Nat.le_zero] at hk
    simp [hk]
  | cons a t ih =>
    intro k hk hlt hge
    cases k with
    | zero =>
      have ha : ¬ a < x := hge (Nat.succ_pos _)
      simp [List.takeWhile_cons, ha]
    | succ k =>
      have ha : a < x := hlt 0 (Nat.succ_pos _) (Nat.succ_pos _) (Nat.succ_pos _)
      have hrest : (t.takeWhile (fun d => decide (d < x))).length = k := by
        apply ih k (Nat.le_of_succ_le_succ hk)
        · intro i hi hik hi2
          exact hlt (i + 1) (Nat.succ_lt_succ hi) (Nat.succ_lt_succ hik)
            (Nat.succ_lt_succ hi)
        · intro hk2
          exact hge (Nat.succ_lt_succ hk2)
      simp [List.takeWhile_cons, ha, hrest]

theorem bisectLeft_between (a : ℚ) (t : List ℚ) (x : ℚ) (k : ℕ)
    (hk : k + 1 < (a :: t).length)
    (hs : (a :: t).Pairwise (· < ·))
    (hlt : (a :: t)[k] < x) (hgt : x < (a :: t)[k + 1]) :
    bisectLeft (a :: t) x 1 = k + 1 := by
  have hd : (a :: t).drop 1 = t := rfl
  have hps := List.pairwise_iff_getElem.mp hs
  have hkt : k ≤ t.length := by
    simp only [List.length_cons] at hk
    omega
  have htw : (t.takeWhile (fun d => decide (d < x))).length = k := by
    apply length_takeWhile_lt
    · exact hkt
    · intro i hi hik hi2
      have hb : i + 1 < (a :: t).length := by
        simp only [List.length_cons]
        omega
      have hti : t[i] = (a :: t)[i + 1] := rfl
      rw [hti]
      rcases Nat.lt_or_ge (i + 1) k with hcase | hcase
      · exact lt_trans (hps (i + 1) k hb (by omega) hcase) hlt
      · obtain rfl : k = i + 1 := by omega
        exact hlt
    · intro hk2
      have htk : t[k] = (a :: t)[k + 1] := rfl
      rw [htk]
      exact not_lt.mpr (le_of_lt hgt)
  unfold bisectLeft
  rw [hd, htw]
  exact Nat.add_comm 1 k

theorem bisectLeft_left (a : ℚ) (t : List ℚ) (x : ℚ)
    (hs : (a :: t).Pairwise (· < ·)) (hlt : x < a) :
    bisectLeft (a :: t) x 1 = 1 := by
  have hd : (a :: t).drop 1 = t := rfl
  have htw : (t.takeWhile (fun d => decide (d < x))).length = 0 := by
    apply length_takeWhile_lt
    · exact Nat.zero_le _
    · intro i hi hik
      exact absurd hik (Nat.not_lt_zero i)
    · intro hk2
      have ha : a < t[0] := (List.pairwise_cons.mp hs).1 _ (List.getElem_mem hk2)
      exact not_lt.mpr (le_of_lt (lt_trans hlt ha))
  unfold bisectLeft
  rw [hd, htw]

/-! ## Concrete data shared by several claims -/

/-- A fixed "now" of 2024-06-15 (month index 5 is June). -/
def cNow : JSDate := ⟨2024, 5, 15⟩

/-- A bar dated 2024-01-02 with close 100. -/
def cOldBar : Bar := { dummyBar with date := ⟨2024, 0, 2⟩, close := 100 }

/-- A bar dated 2024-06-10 with close 110. -/
def cNewBar : Bar := { dummyBar with date := ⟨2024, 5, 10⟩, close := 110 }

/-- A fetched series whose first bar falls outside the 1M window. -/
def cData : List Bar := [cOldBar, cNewBar]

/-- A bar dated 2024-05-01. -/
def mayBar : Bar := { dummyBar with date := ⟨2024, 4, 1⟩ }

/-- A bar dated 2024-06-01. -/
def juneBar : Bar := { dummyBar with date := ⟨2024, 5, 1⟩ }

/-! ## Claim theorems -/

/-- Claim C7: in candlestick mode the candle width equals
`min((inner width / bar count) * 0.8, 15)`, hence is at most 15px and at
most `0.8 * (inner width / bar count)`. -/
theorem candlestickWidth_bounds (innerW : ℚ) (count : ℕ)
    (_hc : 0 < count) (_hw : 0 < innerW) :
    candlestickWidth innerW count = min (innerW / count * 0.8) 15
    ∧ candlestickWidth innerW count ≤ 15
    ∧ candlestickWidth innerW count ≤ 0.8 * (innerW / count) := by
  refine ⟨rfl, min_le_right _ _, ?_⟩
  calc candlestickWidth innerW count ≤ innerW / count * 0.8 := min_le_left _ _
    _ = 0.8 * (innerW / count) := mul_comm _ _

/-- Witness for C7 at inner width 710 and 5 bars. -/
theorem candlestickWidth_bounds_witness :
    candlestickWidth 710 5 ≤ 15
    ∧ candlestickWidth 710 5 ≤ 0.8 * (710 / ((5 : ℕ) : ℚ)) :=
  ⟨(candlestickWidth_bounds 710 5 (by decide) (by decide)).2.1,
   (candlestickWidth_bounds 710 5 (by decide) (by decide)).2.2⟩

/-- Claim C5: for every non-empty bar sequence the vertical scale's domain
is `[(min over bars of min(low, close)) * 0.995,
(max over bars of max(high, close)) * 1.005]` with range
`[inner height, 0]`, and consequently the domain's lower bound is at most
every bar's `min(low, close) * 0.995` and its upper bound at least every
bar's `max(high, close) * 1.005`. -/
theorem yDomain_spec :
    (∀ bars : List Bar, bars ≠ [] → ∃ lo hi, yDomain bars = some (lo, hi))
    ∧ (∀ (bars : List Bar) (m M : ℚ),
        d3min (bars.map fun b => min b.low b.close) = some m →
        d3max (bars.map fun b => max b.high b.close) = some M →
        yDomain bars = some (m * 0.995, M * 1.005))
    ∧ (∀ (bars : List Bar) (lo hi : ℚ), yDomain bars = some (lo, hi) →
        ∀ b ∈ bars, lo ≤ min b.low b.close * 0.995
          ∧ max b.high b.close * 1.005 ≤ hi)
    ∧ (∀ height : ℚ, yRange height = (innerHeight height, 0)) := by
  refine ⟨?_, ?_, ?_, fun height => rfl⟩
  · intro bars hne
    cases bars with
    | nil => exact absurd rfl hne
    | cons b t =>
      cases hm : d3min ((b :: t).map fun v => min v.low v.close) with
      | none =>
        have := d3min_eq_none hm
        simp at this
      | some m =>
        cases hM : d3max ((b :: t).map fun v => max v.high v.close) with
        | none =>
          have := d3max_eq_none hM
          simp at this
        | some M =>
          refine ⟨m * 0.995, M * 1.005, ?_⟩
          simp only [yDomain]
          rw [hm, hM]
  · intro bars m M hm hM
    simp [yDomain, hm, hM]
  · intro bars lo hi h b hb
    cases hm : d3min (bars.map fun v => min v.low v.close) with
    | none => simp [yDomain, hm] at h
    | some m =>
      cases hM : d3max (bars.map fun v => max v.high v.close) with
      | none => simp [yDomain, hm, hM] at h
      | some M =>
        simp only [yDomain, hm, hM, Option.some.injEq, Prod.mk.injEq] at h
        obtain ⟨hlo, hhi⟩ := h
        have h1 : m ≤ min b.low b.close :=
          d3min_le _ m hm _ (List.mem_map_of_mem _ hb)
        have h2 : max b.high b.close ≤ M :=
          le_d3max _ M hM _ (List.mem_map_of_mem _ hb)
        constructor
        · rw [← hlo]
          exact mul_le_mul_of_nonneg_right h1 (by norm_num)
        · rw [← hhi]
          exact mul_le_mul_of_nonneg_right h2 (by norm_num)

/-- Witness for C5 on a one-bar list. -/
theorem yDomain_spec_witness :
    (0 : ℚ) ≤ min dummyBar.low dummyBar.close * 0.995
    ∧ max dummyBar.high dummyBar.close * 1.005 ≤ 0 :=
  yDomain_spec.2.2.1 [dummyBar] 0 0
    (by simp [yDomain, d3min, d3max, dummyBar]) dummyBar (by simp)

/-- Claim C4: the fetcher raises the reported error text on an
"Error Message" field, a distinct fixed rate-limit message on a "Note"
field, and a check-the-symbol message when neither field nor a time-series
key is present; all three outcomes are errors, and otherwise it succeeds
with the parsed, reversed series. -/
theorem fetcher_taxonomy :
    (∀ (r : ApiResponse) (msg : String), r.errorMessage = some msg →
        fetcher r = Except.error msg)
    ∧ (∀ (r : ApiResponse) (n : String), r.errorMessage = none → r.note = some n →
        fetcher r = Except.error rateLimitMessage)
    ∧ (∀ r : ApiResponse, r.errorMessage = none → r.note = none →
        r.timeSeries = none → fetcher r = Except.error noDataMessage)
    ∧ rateLimitMessage ≠ noDataMessage
    ∧ (∀ (r : ApiResponse) ts, r.errorMessage = none → r.note = none →
        r.timeSeries = some ts →
        fetcher r = Except.ok ((ts.map entryToBar).reverse)) := by
  refine ⟨?_, ?_, ?_, by decide, ?_⟩
  · intro r msg h
    simp [fetcher, h]
  · intro r n h1 h2
    simp [fetcher, h1, h2]
  · intro r h1 h2 h3
    simp [fetcher, h1, h2, h3]
  · intro r ts h1 h2 h3
    simp [fetcher, h1, h2, h3]

/-- Witness for C4: the three error shapes at concrete responses. -/
theorem fetcher_taxonomy_witness :
    fetcher ⟨some "Invalid API call.", none, none⟩ = Except.error "Invalid API call."
    ∧ fetcher ⟨none, some "limit", none⟩ = Except.error rateLimitMessage
    ∧ fetcher ⟨none, none, none⟩ = Except.error noDataMessage :=
  ⟨fetcher_taxonomy.1 _ _ rfl, fetcher_taxonomy.2.1 _ _ rfl rfl,
   fetcher_taxonomy.2.2.1 _ rfl rfl rfl⟩

/-- Claim C9: when a response carries both an "Error Message" and a "Note"
field, the fetcher raises the error-message text, not the rate-limit
message: the explicit-error check precedes the rate-limit check. -/
theorem fetcher_errorMessage_first :
    ∀ (r : ApiResponse) (msg n : String),
      r.errorMessage = some msg → r.note = some n →
      fetcher r = Except.error msg
      ∧ (msg ≠ rateLimitMessage → fetcher r ≠ Except.error rateLimitMessage) := by
  intro r msg n h1 _
  have he : fetcher r = Except.error msg := by simp [fetcher, h1]
  refine ⟨he, ?_⟩
  intro hne hcontra
  rw [he] at hcontra
  exact hne (Except.error.injEq _ _ ▸ hcontra)

/-- Witness for C9 at a response with both fields set. -/
theorem fetcher_errorMessage_first_witness :
    fetcher ⟨some "Invalid API call.", some "limit", none⟩
      = Except.error "Invalid API call." :=
  (fetcher_errorMessage_first ⟨some "Invalid API call.", some "limit", none⟩
    "Invalid API call." "limit" rfl rfl).1

/-- Claim C10: the range filter's output is a subsequence of its input
(retained bars unchanged, order preserved), so strict date ascent is
preserved, and for "ALL" the output is the input itself. -/
theorem filterDataByTimeRange_subsequence :
    (∀ (now : JSDate) (timeRange : String) (data : List Bar),
        (filterDataByTimeRange now timeRange data).Sublist data)
    ∧ (∀ (now : JSDate) (timeRange : String) (data : List Bar),
        data.Pairwise (fun a b => a.date.num < b.date.num) →
        (filterDataByTimeRange now timeRange data).Pairwise
          (fun a b => a.date.num < b.date.num))
    ∧ (∀ (now : JSDate) (data : List Bar),
        filterDataByTimeRange now "ALL" data = data) := by
  have hsub : ∀ (now : JSDate) (timeRange : String) (data : List Bar),
      (filterDataByTimeRange now timeRange data).Sublist data := by
    intro now timeRange data
    unfold filterDataByTimeRange
    cases cutoffDayNum now timeRange with
    | some c => exact List.filter_sublist data
    | none => exact List.Sublist.refl data
  refine ⟨hsub, ?_, ?_⟩
  · intro now timeRange data hp
    exact List.Pairwise.sublist (hsub now timeRange data) hp
  · intro now data
    simp [filterDataByTimeRange, cutoffDayNum]

/-- Witness for C10's order-preservation clause on a concrete list. -/
theorem filterDataByTimeRange_subsequence_witness :
    (filterDataByTimeRange cNow "1M" [mayBar, juneBar]).Pairwise
      (fun a b => a.date.num < b.date.num) :=
  filterDataByTimeRange_subsequence.2.1 cNow "1M" [mayBar, juneBar] (by decide)

/-- Claim C8: the dominant chart colour is green exactly when the last
close minus the first close is non-negative and red otherwise, while each
candle's wick and body share one colour decided by that bar's own
`close >= open`. -/
theorem chartColor_policy :
    (∀ bars : List Bar, priceChange bars =
        (bars.getD (bars.length - 1) dummyBar).close - (bars.getD 0 dummyBar).close)
    ∧ (∀ bars : List Bar, chartColor bars = upColor ↔ 0 ≤ priceChange bars)
    ∧ (∀ bars : List Bar, chartColor bars = downColor ↔ priceChange bars < 0)
    ∧ (∀ (xs ys : ℚ → ℚ) (w : ℚ) (b : Bar),
        (candleWick xs ys b).stroke = (candleBody xs ys w b).fill
        ∧ (candleWick xs ys b).stroke
            = (if b.open_ ≤ b.close then upColor else downColor)) := by
  have hne : upColor ≠ downColor := by decide
  refine ⟨fun bars => rfl, ?_, ?_, ?_⟩
  · intro bars
    by_cases h : 0 ≤ priceChange bars
    · simp [chartColor, h]
    · simp [chartColor, h]
      exact fun hcontra => hne hcontra.symm
  · intro bars
    by_cases h : 0 ≤ priceChange bars
    · simp [chartColor, h, not_lt.mpr h]
      exact fun hcontra => hne hcontra
    · simp [chartColor, h, not_le.mp h]
  · intro xs ys w b
    by_cases h : b.open_ ≤ b.close
    · simp [candleWick, candleBody, barIsUp, h]
    · simp [candleWick, candleBody, barIsUp, h]

/-- Claim C1 counterexample: the claim says the percent change is computed
over the range-filtered series and is 0 when that series has fewer than 2
bars; with "now" 2024-06-15, range "1M" and fetched bars dated 2024-01-02
(close 100) and 2024-06-10 (close 110), the filtered series has one bar yet
the displayed change is 10, because `calculateChange` runs on the raw
fetched series. -/
theorem percentChange_filtered_counterexample :
    (filterDataByTimeRange cNow "1M" cData).length < 2
    ∧ displayedChange (some cData) = 10
    ∧ displayedChange (some cData) ≠ 0 := by
  refine ⟨by decide, ?_, ?_⟩
  · norm_num [displayedChange, calculateChange, cData, cOldBar, cNewBar, dummyBar]
  · norm_num [displayedChange, calculateChange, cData, cOldBar, cNewBar, dummyBar]

/-- Claim C1 (amended): the percent-change computation equals
`(last.close - first.close) / first.close * 100` over the raw fetched
series (not the range-filtered one), equals exactly 0 when the fetched
series has fewer than 2 bars, and returns 10 on a two-bar fetched series
with closes 100 and 110. -/
theorem calculateChange_spec :
    (∀ data : List Bar, data.length < 2 → calculateChange data = 0)
    ∧ (∀ (data : List Bar) (b e : Bar), 2 ≤ data.length →
        data.head? = some b → data.getLast? = some e →
        calculateChange data = (e.close - b.close) / b.close * 100)
    ∧ calculateChange cData = 10 := by
  refine ⟨?_, ?_, ?_⟩
  · intro data h
    simp [calculateChange, h]
  · intro data b e hlen hb he
    have hnl : ¬ data.length < 2 := not_lt.mpr hlen
    have h0 : data.getD 0 dummyBar = b := by
      rw [List.getD_eq_getElem?_getD, ← List.head?_eq_getElem?, hb]
      rfl
    have h1 : data.getD (data.length - 1) dummyBar = e := by
      rw [List.getD_eq_getElem?_getD, ← List.getLast?_eq_getElem?, he]
      rfl
    unfold calculateChange
    rw [if_neg hnl, h0, h1]
  · norm_num [calculateChange, cData, cOldBar, cNewBar, dummyBar]

/-- Witness for the amended C1: the two-bar formula at the concrete series. -/
theorem calculateChange_spec_witness :
    calculateChange cData = (cNewBar.close - cOldBar.close) / cOldBar.close * 100 :=
  calculateChange_spec.2.1 cData cOldBar cNewBar (by decide) rfl rfl

/-- Claim C2: for a recognised range the filter keeps exactly the bars
dated at or after the cutoff obtained by subtracting the range's look-back
period (1 day, 1 month, 6 months, 1 year, 5 years) from "now" with
JavaScript date normalisation; "ALL" and any unrecognised range pass all
bars through; with now 2024-06-15 and range "1M", a bar dated 2024-05-01
is excluded and one dated 2024-06-01 is included. -/
theorem filterDataByTimeRange_cutoff :
    (∀ (now : JSDate) (timeRange : String) (c : Int) (data : List Bar),
        cutoffDayNum now timeRange = some c →
        filterDataByTimeRange now timeRange data
          = data.filter (fun b => decide (c ≤ b.date.num)))
    ∧ (∀ now : JSDate,
        cutoffDayNum now "1D" = some (toDayNumber now.year now.month (now.day - 1))
        ∧ cutoffDayNum now "1M" = some (toDayNumber now.year (now.month - 1) now.day)
        ∧ cutoffDayNum now "6M" = some (toDayNumber now.year (now.month - 6) now.day)
        ∧ cutoffDayNum now "1Y" = some (toDayNumber (now.year - 1) now.month now.day)
        ∧ cutoffDayNum now "5Y" = some (toDayNumber (now.year - 5) now.month now.day))
    ∧ (∀ (now : JSDate) (timeRange : String) (data : List Bar),
        timeRange ∉ (["1D", "1M", "6M", "1Y", "5Y"] : List String) →
        filterDataByTimeRange now timeRange data = data)
    ∧ (mayBar ∉ filterDataByTimeRange cNow "1M" [mayBar, juneBar]
        ∧ juneBar ∈ filterDataByTimeRange cNow "1M" [mayBar, juneBar]) := by
  refine ⟨?_, ?_, ?_, by decide, by decide⟩
  · intro now timeRange c data h
    simp [filterDataByTimeRange, h]
  · intro now
    refine ⟨?_, ?_, ?_, ?_, ?_⟩ <;> simp [cutoffDayNum]
  · intro now timeRange data h
    simp only [List.mem_cons, List.not_mem_nil, or_false, not_or] at h
    obtain ⟨h1, h2, h3, h4, h5⟩ := h
    simp [filterDataByTimeRange, cutoffDayNum, h1, h2, h3, h4, h5]

/-- Witness for C2's filter-equation clause at the concrete cutoff. -/
theorem filterDataByTimeRange_cutoff_witness :
    filterDataByTimeRange cNow "1M" [mayBar, juneBar]
      = [mayBar, juneBar].filter (fun b => decide (toDayNumber 2024 4 15 ≤ b.date.num)) :=
  filterDataByTimeRange_cutoff.1 cNow "1M" (toDayNumber 2024 4 15) [mayBar, juneBar]
    (by decide)

/-- Claim C3: over a non-empty strictly-ascending bar sequence the
tooltip's nearest-bar lookup always lands in bounds, resolves a cursor
date strictly between two bars to the earlier bar, and clamps a cursor
left of the first bar to the first bar. -/
theorem tooltip_nearest_spec :
    (∀ (bars : List Bar) (x0 : ℚ), bars ≠ [] → tooltipIndex bars x0 < bars.length)
    ∧ (∀ (bars : List Bar) (x0 : ℚ) (k : ℕ) (hk : k + 1 < bars.length),
        bars.Pairwise (fun a b => a.date.num < b.date.num) →
        ((bars[k].date.num : ℚ) < x0) → (x0 < (bars[k + 1].date.num : ℚ)) →
        tooltipIndex bars x0 = k)
    ∧ (∀ (bars : List Bar) (x0 : ℚ) (h0 : 0 < bars.length),
        bars.Pairwise (fun a b => a.date.num < b.date.num) →
        (x0 < (bars[0].date.num : ℚ)) → tooltipIndex bars x0 = 0) := by
  refine ⟨?_, ?_, ?_⟩
  · intro bars x0 hne
    cases bars with
    | nil => exact absurd rfl hne
    | cons b t =>
      unfold tooltipIndex bisectLeft
      have h1 : (((List.map (fun v => (v.date.num : ℚ)) (b :: t)).drop 1).takeWhile
          (fun d => decide (d < x0))).length ≤ t.length := by
        have h2 := (List.takeWhile_sublist
          (l := (List.map (fun v => (v.date.num : ℚ)) (b :: t)).drop 1)
          (fun d => decide (d < x0))).length_le
        simpa [List.length_drop] using h2
      simp only [List.length_cons]
      omega
  · intro bars x0 k hk hs hlt hgt
    cases bars with
    | nil => simp at hk
    | cons b t =>
      have hml : k < (List.map (fun v => (v.date.num : ℚ)) (b :: t)).length := by
        simp only [List.length_map]
        omega
      have hml1 : k + 1 < (List.map (fun v => (v.date.num : ℚ)) (b :: t)).length := by
        simp only [List.length_map]
        exact hk
      have hs2 : (List.map (fun v => (v.date.num : ℚ)) (b :: t)).Pairwise (· < ·) :=
        List.pairwise_map.mpr (hs.imp fun h => Int.cast_lt.mpr h)
      have hs2c : (((b.date.num : ℚ)) :: List.map (fun v => (v.date.num : ℚ)) t).Pairwise
          (· < ·) := hs2
      have hk2 : k + 1
          < (((b.date.num : ℚ)) :: List.map (fun v => (v.date.num : ℚ)) t).length := hml1
      have hclen : k < (((b.date.num : ℚ)) :: List.map (fun v => (v.date.num : ℚ)) t).length :=
        hml
      have hgetk : (((b.date.num : ℚ)) :: List.map (fun v => (v.date.num : ℚ)) t)[k]
          = ((b :: t)[k].date.num : ℚ) :=
        @List.getElem_map Bar ℚ (fun v => (v.date.num : ℚ)) (b :: t) k hml
      have hgetk1 : (((b.date.num : ℚ)) :: List.map (fun v => (v.date.num : ℚ)) t)[k + 1]
          = ((b :: t)[k + 1].date.num : ℚ) :=
        @List.getElem_map Bar ℚ (fun v => (v.date.num : ℚ)) (b :: t) (k + 1) hml1
      have hb := bisectLeft_between (b.date.num : ℚ)
        (List.map (fun v => (v.date.num : ℚ)) t) x0 k hk2 hs2c
        (by rw [hgetk]; exact hlt) (by rw [hgetk1]; exact hgt)
      have hrw : tooltipIndex (b :: t) x0
          = bisectLeft (((b.date.num : ℚ)) :: List.map (fun v => (v.date.num : ℚ)) t) x0 1 - 1 :=
        rfl
      rw [hrw, hb]
      omega
  · intro bars x0 h0 hs hlt
    cases bars with
    | nil => simp at h0
    | cons b t =>
      have hs2 : (List.map (fun v => (v.date.num : ℚ)) (b :: t)).Pairwise (· < ·) :=
        List.pairwise_map.mpr (hs.imp fun h => Int.cast_lt.mpr h)
      have hs2c : (((b.date.num : ℚ)) :: List.map (fun v => (v.date.num : ℚ)) t).Pairwise
          (· < ·) := hs2
      have hlt2 : x0 < ((b.date.num : ℚ)) := hlt
      have hb := bisectLeft_left (b.date.num : ℚ)
        (List.map (fun v => (v.date.num : ℚ)) t) x0 hs2c hlt2
      have hrw : tooltipIndex (b :: t) x0
          = bisectLeft (((b.date.num : ℚ)) :: List.map (fun v => (v.date.num : ℚ)) t) x0 1 - 1 :=
        rfl
      rw [hrw, hb]

/-- A bar dated 1970-01-01 (day number 0). -/
def wBar0 : Bar := { dummyBar with date := ⟨1970, 0, 1⟩ }

/-- A bar dated 1970-01-03 (day number 2). -/
def wBar2 : Bar := { dummyBar with date := ⟨1970, 0, 3⟩ }

/-- Witness for C3: a cursor date strictly between the two bars selects the
earlier one. -/
theorem tooltip_nearest_spec_witness :
    tooltipIndex [wBar0, wBar2] 1 = 0 :=
  tooltip_nearest_spec.2.1 [wBar0, wBar2] 1 0 (by decide) (by decide)
    (by decide) (by decide)

/-- Claim C6: in candlestick mode each bar's wick is a vertical segment
from the scaled high to the scaled low at the bar's horizontal position,
and the body is a rect whose top is the scaled `max(open, close)`, whose
height is `|y(open) - y(close)|` (proportional to `|close - open|` under
the linear price scale), and which is horizontally centred on the bar's
position with the computed candle width. -/
theorem candlestick_geometry :
    ∀ (xs ys : ℚ → ℚ) (w : ℚ) (b : Bar),
      ((candleWick xs ys b).x1 = xs b.date.num
        ∧ (candleWick xs ys b).x2 = xs b.date.num
        ∧ (candleWick xs ys b).y1 = ys b.high
        ∧ (candleWick xs ys b).y2 = ys b.low)
      ∧ ((candleBody xs ys w b).y = ys (max b.open_ b.close)
        ∧ (candleBody xs ys w b).height = |ys b.open_ - ys b.close|
        ∧ (candleBody xs ys w b).width = w
        ∧ (candleBody xs ys w b).x + w / 2 = xs b.date.num)
      ∧ (∀ lo hi innerH : ℚ, ys = linScale lo hi innerH 0 →
          (candleBody xs ys w b).height
            = |b.close - b.open_| * (|innerH| / |hi - lo|)) := by
  intro xs ys w b
  refine ⟨⟨rfl, rfl, rfl, rfl⟩,
    ⟨rfl, rfl, rfl, show xs b.date.num - w / 2 + w / 2 = xs b.date.num by ring⟩, ?_⟩
  intro lo hi innerH hys
  subst hys
  show |linScale lo hi innerH 0 b.open_ - linScale lo hi innerH 0 b.close|
      = |b.close - b.open_| * (|innerH| / |hi - lo|)
  have h1 : linScale lo hi innerH 0 b.open_ - linScale lo hi innerH 0 b.close
      = ((b.open_ - b.close) * (0 - innerH)) / (hi - lo) := by
    simp only [linScale]
    ring
  rw [h1, abs_div, abs_mul, abs_sub_comm b.open_ b.close, zero_sub, abs_neg,
    mul_div_assoc]

/-- Witness for C6's scale clause at a concrete linear scale. -/
theorem candlestick_geometry_witness :
    (candleBody id (linScale 0 1 350 0) 10 dummyBar).height
      = |dummyBar.close - dummyBar.open_| * (|(350 : ℚ)| / |(1 : ℚ) - 0|) :=
  (candlestick_geometry id (linScale 0 1 350 0) 10 dummyBar).2.2 0 1 350 rfl

end StockApp
